import Mathlib

/-!
Verification development for the arbitrum-v3-bot repository: a shallow
embedding of the liquidity-position lifecycle bot. The repository has three
entry-point variants sharing the same core logic:

* `EventMain` models the block-event-driven entry point
  (src/unnamed/part_000): the per-block handler with its safe-mode flag and
  its single-flight `isProcessing` guard, and the decision path `onNewBlock`.
* `Mono` models the monolithic bot variant found at lines 521-1046 of
  src/unnamed/part_003: `findOrphanedPosition`, `rebalancePortfolio` (with a
  slippage-protected minimum output), the tick-range computation with
  clamping, `mintMaxLiquidity` and `executeFullRebalance`.
* `Actions` models the extracted actions module (src/unnamed/part_004):
  `atomicExitPosition` (multicall exit), `rebalancePortfolio` (the variant
  submitting swaps with amountOutMinimum 0) and `mintMaxLiquidity` (the
  variant with an explicit check for the missing Mint event).
* `Utils` models `withRetry` from the utils module (second section of
  src/unnamed/part_004).

Monetary quantities (token balances in human units, prices, swap amounts) are
modelled over `ℚ`; the source computes them with JavaScript numbers. Ticks
and times are `Int`. External calls are modelled by an environment record
holding the outcome each RPC call would produce, and every function returns,
next to its result, the list of ledger calls it issued, in order.
-/

namespace ArbBot

/-- Errors surfaced by external calls and by the bot itself. `rpc` stands for
an arbitrary transient network or node error; `timeout` for the TIMEOUT error
of `waitWithTimeout`; `mintEventMissing` is the distinct error thrown by the
actions-module `mintMaxLiquidity` when the Mint event cannot be found in the
receipt of a successful submission; `typeErrorUndefined` models the JavaScript
TypeError raised when a property of `undefined` is dereferenced (the monolith
variant of `mintMaxLiquidity` reads `event.data` without a null check). -/
inductive Err
  | rpc (code : Nat)
  | timeout
  | mintEventMissing
  | typeErrorUndefined
  deriving DecidableEq, Repr

/-- One ledger interaction, as recorded in a trace. Read-only queries and
mutating submissions are distinguished by `LedgerCall.isMutating`. -/
inductive LedgerCall
  | positionsRead (tokenId : String)
  | balanceRead (token : String)
  | slot0Read
  | orphanScan
  | decreaseLiquidity (tokenId : String)
  | collect (tokenId : String)
  | burn (tokenId : String)
  | swap (tokenIn tokenOut : String) (amountIn amountOutMinimum : ℚ)
  | mint (tickLower tickUpper : Int)
  | saveStateWrite (tokenId : String)
  | healthCheck (tokenId : String)
  | adjustHedge (tokenId : String)
  | alertSend
  deriving DecidableEq, Repr

/-- Whether a call mutates ledger or persisted state: exits (decrease,
collect, burn), swaps, mints, hedge adjustments, the local state-file write,
and the orphan scan (which may repair the state file). -/
def LedgerCall.isMutating : LedgerCall → Bool
  | .decreaseLiquidity _ => true
  | .collect _ => true
  | .burn _ => true
  | .swap _ _ _ _ => true
  | .mint _ _ => true
  | .saveStateWrite _ => true
  | .adjustHedge _ => true
  | .orphanScan => true
  | _ => false

/-- Whether a call is a swap submission. -/
def LedgerCall.isSwap : LedgerCall → Bool
  | .swap _ _ _ _ => true
  | _ => false

/-- The data of `npm.positions(tokenId)` the bot reads. -/
structure PosInfo where
  liquidity : Nat
  tickLower : Int
  tickUpper : Int
  deriving DecidableEq, Repr

/-- One receipt log entry: its first topic and the first word of its data
(which, for a Mint event, decodes to the new token id). -/
structure LogEntry where
  topic0 : String
  dataWord0 : String
  deriving DecidableEq, Repr

/-- The event signature hash key both mint variants search the receipt for. -/
def mintEventTopic : String :=
  "Mint(uint256,address,address,uint24,int24,int24,uint128,uint256,uint256)"

/-- `receipt.logs.find(log => log.topics[0] === ethers.id("Mint(...)"))`. -/
def parseMintEvent (logs : List LogEntry) : Option LogEntry :=
  logs.find? (fun l => l.topic0 = mintEventTopic)

/-- Outcomes of the external calls one full-rebalance invocation can issue.
Balances and the WETH price are the human-unit values the source obtains via
`formatUnits`; `quoteUsdcToWeth` and `quoteWethToUsdc` stand for
`configuredPool.getOutputAmount` on the respective input amount;
`mintResult`, when `ok`, carries the receipt logs of the settled mint. -/
structure Env where
  positionsResult : Except Err PosInfo
  decreaseResult : Except Err Unit
  collectResult : Except Err Unit
  burnResult : Except Err Unit
  multicallResult : Except Err Unit
  balUSDC : ℚ
  balWETH : ℚ
  priceWethInUsdc : ℚ
  quoteUsdcToWeth : ℚ → ℚ
  quoteWethToUsdc : ℚ → ℚ
  swapResult : Except Err Unit
  slot0Result : Except Err Int
  tickSpacing : Int
  mintResult : Except Err (List LogEntry)

namespace Mono

/-- Uniswap V3 hardcoded lower tick limit (part_003 line 912). -/
def MIN_TICK : Int := -887272

/-- Uniswap V3 hardcoded upper tick limit (part_003 line 913). -/
def MAX_TICK : Int := 887272

/-- The fixed half-width of the new range (part_003 line 909). -/
def WIDTH : Int := 2000

/-- `Math.floor(a / s) * s`: round `a` down to a multiple of `s`. -/
def roundDown (a s : Int) : Int := (Int.fdiv a s) * s

/-- `Math.ceil(a / s) * s`: round `a` up to a multiple of `s`. -/
def roundUp (a s : Int) : Int := -((Int.fdiv (-a) s) * s)

/-- The clamp-and-normalize step of the range computation (part_003 lines
918-931) applied to candidate bounds `l`, `u`: clamp the lower bound up to
the smallest in-limit spacing multiple, clamp the upper bound down to the
largest, widen a collapsed window by one spacing, re-derive the lower bound
when the widened upper bound exceeds the limit, and swap an inverted pair. -/
def clampNormalize (s l u : Int) : Int × Int :=
  let l1 := if l < MIN_TICK then roundUp MIN_TICK s else l
  let u1 := if u > MAX_TICK then roundDown MAX_TICK s else u
  let u2 := if l1 = u1 then u1 + s else u1
  let p := if u2 > MAX_TICK then (roundDown MAX_TICK s - s, roundDown MAX_TICK s) else (l1, u2)
  if p.1 > p.2 then (p.2, p.1) else p

/-- The full range computation of `executeFullRebalance` (part_003 lines
915-931): symmetric rounding of `tick ± WIDTH` to spacing multiples followed
by `clampNormalize`. -/
def computeRange (tick s : Int) : Int × Int :=
  clampNormalize s (roundDown (tick - WIDTH) s) (roundDown (tick + WIDTH) s)

/-- The exit phase of `executeFullRebalance` (part_003 lines 839-878): read
the position, decrease its liquidity when positive, collect, burn — each step
sequential, and the whole block wrapped in a try/catch whose handler only
logs a warning, so a failure at any step skips the remaining exit steps but
is swallowed. Returns the calls issued (the phase itself cannot fail). -/
def exitPhase (env : Env) (oldTokenId : String) : List LedgerCall :=
  if oldTokenId = "0" then []
  else
    match env.positionsResult with
    | .error _ => [.positionsRead oldTokenId]
    | .ok pos =>
      if pos.liquidity > 0 then
        match env.decreaseResult with
        | .error _ => [.positionsRead oldTokenId, .decreaseLiquidity oldTokenId]
        | .ok _ =>
          match env.collectResult with
          | .error _ =>
            [.positionsRead oldTokenId, .decreaseLiquidity oldTokenId, .collect oldTokenId]
          | .ok _ =>
            [.positionsRead oldTokenId, .decreaseLiquidity oldTokenId, .collect oldTokenId,
              .burn oldTokenId]
      else
        match env.collectResult with
        | .error _ => [.positionsRead oldTokenId, .collect oldTokenId]
        | .ok _ => [.positionsRead oldTokenId, .collect oldTokenId, .burn oldTokenId]

/-- `rebalancePortfolio` of the monolith variant (part_003 lines 652-753):
compute the signed deviation of the USDC value from an even split, skip the
swap when its absolute value is below 2, otherwise submit exactly one
`exactInputSingle` whose minimum output is the quoted expected output reduced
by the 0.5 percent slippage tolerance. The WETH branch sells 99 percent of
the computed amount, keeping a gas buffer. -/
def rebalancePortfolio (env : Env) : Except Err Unit × List LedgerCall :=
  let reads := [LedgerCall.balanceRead "USDC", LedgerCall.balanceRead "WETH"]
  let valUSDC := env.balUSDC
  let valWETH := env.balWETH
  let priceWETH := env.priceWethInUsdc
  let totalValueUSDC := valUSDC + valWETH * priceWETH
  let targetValue := totalValueUSDC / 2
  let usdcDiff := valUSDC - targetValue
  if |usdcDiff| < 2 then (.ok (), reads)
  else if usdcDiff > 0 then
    let amountIn := usdcDiff
    let expectedOutput := env.quoteUsdcToWeth amountIn
    let minAmountOut := expectedOutput * (1 - 50 / 10000)
    (env.swapResult, reads ++ [LedgerCall.swap "USDC" "WETH" amountIn minAmountOut])
  else
    let wethToSellVal := |usdcDiff| / priceWETH
    let amountIn := wethToSellVal * (99 / 100)
    let expectedOutput := env.quoteWethToUsdc amountIn
    let minAmountOut := expectedOutput * (1 - 50 / 10000)
    (env.swapResult, reads ++ [LedgerCall.swap "WETH" "USDC" amountIn minAmountOut])

/-- `mintMaxLiquidity` of the monolith variant (part_003 lines 755-829): read
both balances, submit the mint, and parse the token id from the Mint event of
the receipt. This variant has no null check on the found event: a receipt
without the event raises a TypeError when `event.data` is dereferenced. -/
def mintMaxLiquidity (env : Env) (tickLower tickUpper : Int) :
    Except Err String × List LedgerCall :=
  let trace := [LedgerCall.balanceRead "USDC", LedgerCall.balanceRead "WETH",
    LedgerCall.mint tickLower tickUpper]
  match env.mintResult with
  | .error e => (.error e, trace)
  | .ok logs =>
    match parseMintEvent logs with
    | none => (.error .typeErrorUndefined, trace)
    | some ev => (.ok ev.dataWord0, trace)

/-- `executeFullRebalance` of the monolith variant (part_003 lines 832-940):
exit phase (errors swallowed), rebalance swap, post-swap price refresh, range
computation, mint, and only then `saveState` with the new token id. A failure
in the swap, refresh or mint phase propagates and skips everything after it. -/
def executeFullRebalance (env : Env) (oldTokenId : String) :
    Except Err String × List LedgerCall :=
  let exitTrace := exitPhase env oldTokenId
  let reb := rebalancePortfolio env
  match reb.1 with
  | .error e => (.error e, exitTrace ++ reb.2)
  | .ok _ =>
    match env.slot0Result with
    | .error e => (.error e, exitTrace ++ reb.2 ++ [.slot0Read])
    | .ok newTick =>
      let range := computeRange newTick env.tickSpacing
      let minted := mintMaxLiquidity env range.1 range.2
      match minted.1 with
      | .error e => (.error e, exitTrace ++ reb.2 ++ [.slot0Read] ++ minted.2)
      | .ok newTokenId =>
        (.ok newTokenId,
          exitTrace ++ reb.2 ++ [.slot0Read] ++ minted.2 ++ [.saveStateWrite newTokenId])

/-- The ledger ownership data the reconciler queries: `npm.balanceOf` and
`npm.tokenOfOwnerByIndex` for the managed account. -/
structure Ledger where
  npmBalance : Nat
  tokenOfOwnerByIndex : Nat → String

/-- `findOrphanedPosition` (part_003 lines 571-589): when the account owns at
least one position token, return the one at the last enumeration index,
otherwise return the sentinel "0". -/
def findOrphanedPosition (led : Ledger) : String :=
  if led.npmBalance > 0 then led.tokenOfOwnerByIndex (led.npmBalance - 1) else "0"

/-- Scenario A of `runLifeCycle` (part_003 lines 985-998), entered when the
persisted record holds tokenId "0": run the reconciler, persist a recovered
identifier immediately, then run the full rebalance with old id "0". Returns
the calls issued, in order. -/
def runLifeCycleScenarioA (led : Ledger) (env : Env) : List LedgerCall :=
  let recoveredId := findOrphanedPosition led
  let saveTrace :=
    if recoveredId ≠ "0" then [LedgerCall.saveStateWrite recoveredId] else []
  saveTrace ++ (executeFullRebalance env "0").2

end Mono

namespace Actions

/-- `atomicExitPosition` (part_004 lines 44-86): read the position (the read
wrapped in `withRetry`, abstracted here as one outcome), then submit a single
multicall bundling decreaseLiquidity (when liquidity is positive), collect
and burn. A failure of the multicall is logged and rethrown. -/
def atomicExitPosition (env : Env) (tokenId : String) :
    Except Err Unit × List LedgerCall :=
  match env.positionsResult with
  | .error e => (.error e, [.positionsRead tokenId])
  | .ok pos =>
    let bundle :=
      (if pos.liquidity > 0 then [LedgerCall.decreaseLiquidity tokenId] else []) ++
        [LedgerCall.collect tokenId, LedgerCall.burn tokenId]
    (env.multicallResult, LedgerCall.positionsRead tokenId :: bundle)

/-- `rebalancePortfolio` of the actions module (part_004 lines 88-159): when
the USDC value exceeds the WETH value, sell half the difference in USDC
unless it is below 5; otherwise sell the WETH equivalent of half the value
difference unless it is below 0.002 WETH. Every submitted swap carries
`amountOutMinimum: 0`. -/
def rebalancePortfolio (env : Env) : Except Err Unit × List LedgerCall :=
  let reads := [LedgerCall.balanceRead "USDC", LedgerCall.balanceRead "WETH"]
  let usdcValue := env.balUSDC
  let wethValueInUsdc := env.balWETH * env.priceWethInUsdc
  if usdcValue > wethValueInUsdc then
    let amountToSell := (usdcValue - wethValueInUsdc) / 2
    if amountToSell < 5 then (.ok (), reads)
    else (env.swapResult, reads ++ [LedgerCall.swap "USDC" "WETH" amountToSell 0])
  else
    let amountToSellValue := (wethValueInUsdc - usdcValue) / 2
    let amountToSell := amountToSellValue / env.priceWethInUsdc
    if amountToSell < 2 / 1000 then (.ok (), reads)
    else (env.swapResult, reads ++ [LedgerCall.swap "WETH" "USDC" amountToSell 0])

/-- `mintMaxLiquidity` of the actions module (part_004 lines 161-217): read
both balances, submit the mint, and search the receipt logs for the Mint
event. When the event is absent from an otherwise successful receipt, throw
the distinct error `mintEventMissing` instead of returning an identifier. -/
def mintMaxLiquidity (env : Env) (tickLower tickUpper : Int) :
    Except Err String × List LedgerCall :=
  let trace := [LedgerCall.balanceRead "USDC", LedgerCall.balanceRead "WETH",
    LedgerCall.mint tickLower tickUpper]
  match env.mintResult with
  | .error e => (.error e, trace)
  | .ok logs =>
    match parseMintEvent logs with
    | none => (.error .mintEventMissing, trace)
    | some ev => (.ok ev.dataWord0, trace)

end Actions

namespace Utils

/-- The recursion of `withRetry` (part_004 utils section, lines 225-237),
which keeps the configured constant MAX_RETRIES as `maxRetriesConst` and the
remaining budget as `retries`. `op` gives the outcome of each attempt by its
zero-based index. Returns the final outcome, the list of delays slept (in
milliseconds, `1000 * (MAX_RETRIES - retries + 1)` before each recursive
call) and the number of invocations of `op`. -/
def withRetryGo (maxRetriesConst : Nat) (op : Nat → Except Err α) :
    Nat → Nat → Except Err α × List Int × Nat
  | attempt, 0 =>
    match op attempt with
    | .ok a => (.ok a, [], 1)
    | .error e => (.error e, [], 1)
  | attempt, r + 1 =>
    match op attempt with
    | .ok a => (.ok a, [], 1)
    | .error _ =>
      let rest := withRetryGo maxRetriesConst op (attempt + 1) r
      (rest.1, (1000 * ((maxRetriesConst : Int) - (r : Int))) :: rest.2.1, rest.2.2 + 1)

/-- `withRetry(operation, retries)` invoked with an explicit budget. -/
def withRetry (maxRetriesConst : Nat) (op : Nat → Except Err α) (retries : Nat) :
    Except Err α × List Int × Nat :=
  withRetryGo maxRetriesConst op 0 retries

/-- `withRetry(operation)` invoked with the default budget
`retries = MAX_RETRIES`, as every call site in the repository does. -/
def withRetryDefault (maxRetriesConst : Nat) (op : Nat → Except Err α) :
    Except Err α × List Int × Nat :=
  withRetry maxRetriesConst op maxRetriesConst

end Utils

namespace EventMain

/-- The module-level mutable flags of the event-driven entry point
(part_000 lines 32-36): the single-flight guard, the hedge-check clock and
the safe-mode flag. -/
structure Flags where
  isSafeMode : Bool
  isProcessing : Bool
  lastHedgeTime : Int
  deriving DecidableEq, Repr

/-- What one evaluation of `onNewBlock` observes: the persisted token id,
the health verdict, the clock, the position read, the pool tick, and the
outcome and calls of the full rebalance were it invoked. -/
structure BlockEnv where
  stateTokenId : String
  healthOk : Bool
  now : Int
  posLiquidity : Nat
  posTickLower : Int
  posTickUpper : Int
  currentTick : Int
  rebalanceResult : Except Err Unit
  rebalanceCalls : List LedgerCall
  hedgeResult : Except Err Unit

/-- `HEDGE_CHECK_INTERVAL_MS` (part_000 line 23). -/
def HEDGE_CHECK_INTERVAL_MS : Int := 60000

/-- `onNewBlock` (part_000 lines 100-205): with no tracked position, read the
pool and run the full rebalance; otherwise check health first and enter safe
mode on a negative verdict; otherwise return early when the hedge-check
interval has not elapsed; otherwise read the pool and the position, rescan
orphans when the position is empty, rebalance when the current tick is out of
range, and adjust the hedge when in range. Returns the outcome (an `error`
models a thrown exception), the updated flags and the calls issued. -/
def onNewBlock (env : BlockEnv) (f : Flags) :
    Except Err Unit × Flags × List LedgerCall :=
  if env.stateTokenId = "" ∨ env.stateTokenId = "0" then
    match env.rebalanceResult with
    | .ok _ =>
      (.ok (), { f with lastHedgeTime := 0 }, LedgerCall.slot0Read :: env.rebalanceCalls)
    | .error e => (.error e, f, LedgerCall.slot0Read :: env.rebalanceCalls)
  else if env.healthOk = false then
    (.ok (), { f with isSafeMode := true },
      [.healthCheck env.stateTokenId, .alertSend])
  else if env.now - f.lastHedgeTime < HEDGE_CHECK_INTERVAL_MS then
    (.ok (), f, [.healthCheck env.stateTokenId])
  else
    let t0 := [LedgerCall.healthCheck env.stateTokenId, LedgerCall.slot0Read,
      LedgerCall.positionsRead env.stateTokenId]
    if env.posLiquidity = 0 then
      (.ok (), f, t0 ++ [.alertSend, .orphanScan])
    else if env.currentTick < env.posTickLower ∨ env.currentTick > env.posTickUpper then
      match env.rebalanceResult with
      | .ok _ => (.ok (), { f with lastHedgeTime := env.now }, t0 ++ env.rebalanceCalls)
      | .error e => (.error e, f, t0 ++ env.rebalanceCalls)
    else
      match env.hedgeResult with
      | .ok _ =>
        (.ok (), { f with lastHedgeTime := env.now },
          t0 ++ [.adjustHedge env.stateTokenId])
      | .error e => (.error e, f, t0 ++ [.adjustHedge env.stateTokenId])

/-- The per-block listener (part_000 lines 78-97): return at once while in
safe mode; drop the trigger while an evaluation is in flight; otherwise set
`isProcessing`, run `onNewBlock` with any thrown error caught and logged, and
clear `isProcessing` in the `finally` block. Returns the flags after the
handler, the calls issued and whether the decision path ran. -/
def blockHandler (env : BlockEnv) (f : Flags) : Flags × List LedgerCall × Bool :=
  if f.isSafeMode then (f, [], false)
  else if f.isProcessing then (f, [], false)
  else
    let f1 := { f with isProcessing := true }
    let r := onNewBlock env f1
    ({ r.2.1 with isProcessing := false }, r.2.2, true)

end EventMain

/-- A concrete environment in which every external call succeeds and the
receipt of the mint carries the Mint event with token id "777". -/
def sampleEnv : Env :=
  { positionsResult := .ok ⟨5, 0, 100⟩
    decreaseResult := .ok ()
    collectResult := .ok ()
    burnResult := .ok ()
    multicallResult := .ok ()
    balUSDC := 0
    balWETH := 0
    priceWethInUsdc := 0
    quoteUsdcToWeth := fun _ => 0
    quoteWethToUsdc := fun _ => 0
    swapResult := .ok ()
    slot0Result := .ok 0
    tickSpacing := 10
    mintResult := .ok [⟨mintEventTopic, "777"⟩] }

/-- The environment of the C2 counterexample: the exit-phase position read
fails with a transient error, while every later phase succeeds; the held
balances force a swap of 50 USDC. -/
def envC2 : Env :=
  { sampleEnv with
    positionsResult := .error (.rpc 0)
    balUSDC := 100
    balWETH := 0
    priceWethInUsdc := 2000
    quoteUsdcToWeth := fun _ => 1 }

/-- The environment of the C3 counterexample: balances force the actions
module to sell 50 USDC, with a nonzero quoted expected output. -/
def envC3 : Env :=
  { sampleEnv with
    balUSDC := 100
    balWETH := 0
    priceWethInUsdc := 2000
    quoteUsdcToWeth := fun _ => 1 }

/-- An environment whose mint settles with a receipt holding no Mint event. -/
def envC5 : Env := { sampleEnv with mintResult := .ok [] }

/-- The environment of the C8 counterexample: at price 500 the holdings
100 USDC and 0.206 WETH deviate by only 1.50 dollars from the even split,
yet the WETH-side trade of 0.003 WETH is above the 0.002 WETH floor of the
actions-module variant. -/
def envC8 : Env :=
  { sampleEnv with
    balUSDC := 100
    balWETH := 103 / 500
    priceWethInUsdc := 500 }

/-- A block environment with a tracked position, a healthy verdict and an
in-range tick. -/
def sampleBlockEnv : EventMain.BlockEnv :=
  { stateTokenId := "7"
    healthOk := true
    now := 0
    posLiquidity := 1
    posTickLower := 0
    posTickUpper := 100
    currentTick := 50
    rebalanceResult := .ok ()
    rebalanceCalls := []
    hedgeResult := .ok () }



/-! ## Arithmetic of the rounding helpers -/

namespace Mono

theorem roundDown_le (a : Int) {s : Int} (hs : 0 < s) : roundDown a s ≤ a := by
  unfold roundDown
  rw [Int.fdiv_eq_ediv _ hs.le]
  exact Int.ediv_mul_le a (ne_of_gt hs)

theorem lt_roundDown_add (a : Int) {s : Int} (hs : 0 < s) : a < roundDown a s + s := by
  unfold roundDown
  rw [Int.fdiv_eq_ediv _ hs.le]
  have h := Int.lt_ediv_add_one_mul_self a hs
  nlinarith [h]

theorem roundDown_mono {s : Int} (hs : 0 < s) {a b : Int} (h : a ≤ b) :
    roundDown a s ≤ roundDown b s := by
  unfold roundDown
  rw [Int.fdiv_eq_ediv _ hs.le, Int.fdiv_eq_ediv _ hs.le]
  exact mul_le_mul_of_nonneg_right (Int.ediv_le_ediv hs h) hs.le

theorem dvd_roundDown (a s : Int) : s ∣ roundDown a s := dvd_mul_left s _

theorem le_roundDown {s m a : Int} (hs : 0 < s) (hdvd : s ∣ m) (h : m ≤ a) :
    m ≤ roundDown a s := by
  obtain ⟨k, rfl⟩ := hdvd
  unfold roundDown
  rw [Int.fdiv_eq_ediv _ hs.le]
  have hk : k ≤ a / s := (Int.le_ediv_iff_mul_le hs).2 (by linarith [h, mul_comm s k])
  calc s * k = k * s := mul_comm s k
  _ ≤ (a / s) * s := mul_le_mul_of_nonneg_right hk hs.le

theorem le_roundUp (a : Int) {s : Int} (hs : 0 < s) : a ≤ roundUp a s := by
  unfold roundUp
  have h := roundDown_le (-a) hs
  unfold roundDown at h
  omega

theorem roundUp_lt_add (a : Int) {s : Int} (hs : 0 < s) : roundUp a s < a + s := by
  unfold roundUp
  have h := lt_roundDown_add (-a) hs
  unfold roundDown at h
  omega

theorem dvd_roundUp (a s : Int) : s ∣ roundUp a s :=
  Int.dvd_neg.mpr (dvd_mul_left s _)

set_option maxHeartbeats 1000000 in
/-- The clamp-and-normalize step leaves a pair that is already strictly
ordered and within the global tick limits untouched. -/
theorem clampNormalize_fixed {s l u : Int}
    (h1 : MIN_TICK ≤ l) (h2 : l < u) (h3 : u ≤ MAX_TICK) :
    clampNormalize s l u = (l, u) := by
  unfold clampNormalize
  simp only [MIN_TICK, MAX_TICK] at h1 h2 h3 ⊢
  split_ifs <;> (try dsimp only) <;> first | rfl | (exfalso; omega)

set_option maxHeartbeats 1000000 in
/-- For a spacing no larger than the half-width and a tick within the global
limits, the computed range is strictly ordered and within the limits. -/
theorem computeRange_bounds {tick s : Int} (hs : 0 < s) (hsW : s ≤ 2000)
    (ht1 : MIN_TICK ≤ tick) (ht2 : tick ≤ MAX_TICK) :
    MIN_TICK ≤ (computeRange tick s).1 ∧
      (computeRange tick s).1 < (computeRange tick s).2 ∧
      (computeRange tick s).2 ≤ MAX_TICK := by
  have hL1 : roundDown (tick - WIDTH) s ≤ tick - WIDTH := roundDown_le _ hs
  have hL2 : tick - WIDTH < roundDown (tick - WIDTH) s + s := lt_roundDown_add _ hs
  have hU1 : roundDown (tick + WIDTH) s ≤ tick + WIDTH := roundDown_le _ hs
  have hU2 : tick + WIDTH < roundDown (tick + WIDTH) s + s := lt_roundDown_add _ hs
  have hMlo1 : MIN_TICK ≤ roundUp MIN_TICK s := le_roundUp _ hs
  have hMlo2 : roundUp MIN_TICK s < MIN_TICK + s := roundUp_lt_add _ hs
  have hMhi1 : roundDown MAX_TICK s ≤ MAX_TICK := roundDown_le _ hs
  have hMhi2 : MAX_TICK < roundDown MAX_TICK s + s := lt_roundDown_add _ hs
  have hLU : roundDown (tick - WIDTH) s ≤ roundDown (tick + WIDTH) s :=
    roundDown_mono hs (by simp only [WIDTH]; omega)
  have hMloU : roundUp MIN_TICK s ≤ roundDown (tick + WIDTH) s :=
    le_roundDown hs (dvd_roundUp _ _)
      (by simp only [MIN_TICK, WIDTH] at hMlo2 ht1 ⊢; omega)
  have hLMhi : roundDown (tick - WIDTH) s ≤ roundDown MAX_TICK s :=
    roundDown_mono hs (by simp only [MAX_TICK, WIDTH] at ht2 ⊢; omega)
  have hMloMhi : roundUp MIN_TICK s ≤ roundDown MAX_TICK s :=
    le_roundDown hs (dvd_roundUp _ _)
      (by simp only [MIN_TICK, MAX_TICK] at hMlo2 ⊢; omega)
  unfold computeRange clampNormalize
  simp only [MIN_TICK, MAX_TICK, WIDTH] at *
  generalize hL : roundDown (tick - 2000) s = L at *
  generalize hU : roundDown (tick + 2000) s = U at *
  generalize hMlo : roundUp (-887272) s = Mlo at *
  generalize hMhi : roundDown 887272 s = Mhi at *
  split_ifs <;> dsimp only <;> omega

end Mono

/-- Claim C7 (amended): for every input tick within the global tick limits
and every positive tick spacing no larger than the fixed half-width 2000, the
range computation yields bounds with tickLower < tickUpper, both within the
global tick limits [-887272, 887272], and applying the clamp-and-normalize
step to its own output returns the output unchanged. (The original claim,
quantified over all ticks and all positive spacings, is refuted by
`c7_counterexample`.) -/
theorem c7_range_clamp_idempotent {tick s : Int} (hs : 0 < s) (hsW : s ≤ 2000)
    (ht1 : Mono.MIN_TICK ≤ tick) (ht2 : tick ≤ Mono.MAX_TICK) :
    Mono.MIN_TICK ≤ (Mono.computeRange tick s).1 ∧
      (Mono.computeRange tick s).1 < (Mono.computeRange tick s).2 ∧
      (Mono.computeRange tick s).2 ≤ Mono.MAX_TICK ∧
      Mono.clampNormalize s (Mono.computeRange tick s).1 (Mono.computeRange tick s).2 =
        Mono.computeRange tick s := by
  obtain ⟨h1, h2, h3⟩ := Mono.computeRange_bounds hs hsW ht1 ht2
  exact ⟨h1, h2, h3, Mono.clampNormalize_fixed h1 h2 h3⟩

/-- Witness for C7: at tick 0 and spacing 10 the computed range is in-limit,
strictly ordered and a fixed point of the clamp-and-normalize step. -/
theorem c7_witness :
    Mono.MIN_TICK ≤ (Mono.computeRange 0 10).1 ∧
      (Mono.computeRange 0 10).1 < (Mono.computeRange 0 10).2 ∧
      (Mono.computeRange 0 10).2 ≤ Mono.MAX_TICK ∧
      Mono.clampNormalize 10 (Mono.computeRange 0 10).1 (Mono.computeRange 0 10).2 =
        Mono.computeRange 0 10 :=
  c7_range_clamp_idempotent (by decide) (by decide) (by decide) (by decide)

/-- Counterexample to C7 as stated: at input tick -887272 (the lower global
limit itself) and spacing 3000 the computation returns (-888000, -885000),
whose lower bound lies outside the global tick limits, and re-applying the
clamp-and-normalize step to this output yields the different pair
(-885000, -882000): the step is not idempotent there. -/
theorem c7_counterexample :
    Mono.computeRange (-887272) 3000 = (-888000, -885000) ∧
      Mono.clampNormalize 3000 (-888000) (-885000) = (-885000, -882000) ∧
      ¬ Mono.MIN_TICK ≤ (-888000 : Int) ∧
      Mono.clampNormalize 3000 (Mono.computeRange (-887272) 3000).1
          (Mono.computeRange (-887272) 3000).2 ≠ Mono.computeRange (-887272) 3000 :=
  ⟨by decide, by decide, by decide, by decide⟩


/-- Claim C1: while the safe-mode flag is set, every block trigger returns at
once from the handler — no ledger call at all is issued (in particular no
exit, swap, mint or state write) and the flags are untouched — and no code
path of the handler ever clears the safe-mode flag once set: from any state
with the flag set, the handler leaves it set. -/
theorem c1_safe_mode_frozen (env : EventMain.BlockEnv) (f : EventMain.Flags)
    (h : f.isSafeMode = true) :
    EventMain.blockHandler env f = (f, [], false) ∧
      (∀ env2 f2, f2.isSafeMode = true →
        ((EventMain.blockHandler env2 f2).1).isSafeMode = true) := by
  refine ⟨?_, ?_⟩
  · unfold EventMain.blockHandler
    rw [if_pos h]
  · intro env2 f2 h2
    unfold EventMain.blockHandler
    rw [if_pos h2]
    exact h2

/-- Witness for C1: a concrete safe-mode state is left untouched and issues
no call. -/
theorem c1_witness :
    EventMain.blockHandler sampleBlockEnv ⟨true, false, 0⟩ =
      (⟨true, false, 0⟩, [], false) :=
  (c1_safe_mode_frozen sampleBlockEnv ⟨true, false, 0⟩ rfl).1

/-- Claim C6: a trigger arriving while `isProcessing` is set (and safe mode is
not) returns without running the decision path and without issuing any call;
and whenever a trigger is admitted (`isProcessing` clear), the guard is clear
again after the handler, for every environment — including those in which the
decision path throws (`rebalanceResult` or `hedgeResult` an error), since the
guard is released in the `finally` block. -/
theorem c6_single_flight_guard (env : EventMain.BlockEnv) (f : EventMain.Flags) :
    (f.isSafeMode = false → f.isProcessing = true →
        EventMain.blockHandler env f = (f, [], false)) ∧
      (f.isProcessing = false →
        ((EventMain.blockHandler env f).1).isProcessing = false) := by
  constructor
  · intro hs hp
    unfold EventMain.blockHandler
    rw [if_neg (by simp [hs]), if_pos hp]
  · intro hp
    unfold EventMain.blockHandler
    by_cases hs : f.isSafeMode
    · rw [if_pos hs]
      exact hp
    · rw [if_neg hs, if_neg (by simp [hp])]

/-- Witness for C6: a concrete busy trigger is dropped, and a concrete
admitted trigger whose decision path throws still ends with the guard clear. -/
theorem c6_witness :
    EventMain.blockHandler sampleBlockEnv ⟨false, true, 0⟩ =
        (⟨false, true, 0⟩, [], false) ∧
      ((EventMain.blockHandler
          { sampleBlockEnv with rebalanceResult := .error .timeout, stateTokenId := "0" }
          ⟨false, false, 0⟩).1).isProcessing = false :=
  ⟨(c6_single_flight_guard sampleBlockEnv ⟨false, true, 0⟩).1 rfl rfl,
    (c6_single_flight_guard _ ⟨false, false, 0⟩).2 rfl⟩


/-- Claim C10: with a tracked position and a passing health check, a trigger
arriving before HEDGE_CHECK_INTERVAL_MS (60000 ms) have elapsed since
`lastHedgeTime` returns right after the health check: the only call issued is
the health check itself — the pool and the position (hence its range) are
never read, and neither a rebalance, a hedge adjustment nor any other
mutating call can be issued, whatever the current tick and range are. -/
theorem c10_hedge_interval_gates_strategy (env : EventMain.BlockEnv)
    (f : EventMain.Flags)
    (h1 : env.stateTokenId ≠ "") (h2 : env.stateTokenId ≠ "0")
    (h3 : env.healthOk = true)
    (h4 : env.now - f.lastHedgeTime < EventMain.HEDGE_CHECK_INTERVAL_MS) :
    EventMain.onNewBlock env f =
        (.ok (), f, [.healthCheck env.stateTokenId]) ∧
      (∀ c ∈ (EventMain.onNewBlock env f).2.2, c.isMutating = false) ∧
      (∀ tid, LedgerCall.positionsRead tid ∉ (EventMain.onNewBlock env f).2.2) ∧
      LedgerCall.slot0Read ∉ (EventMain.onNewBlock env f).2.2 ∧
      (∀ tid, LedgerCall.adjustHedge tid ∉ (EventMain.onNewBlock env f).2.2) := by
  have heq : EventMain.onNewBlock env f =
      (.ok (), f, [.healthCheck env.stateTokenId]) := by
    unfold EventMain.onNewBlock
    rw [if_neg (by simp [h1, h2]), if_neg (by simp [h3]), if_pos h4]
  refine ⟨heq, ?_, ?_, ?_, ?_⟩ <;> rw [heq] <;> simp [LedgerCall.isMutating]

/-- Witness for C10: a concrete in-interval trigger issues only the health
check. -/
theorem c10_witness :
    EventMain.onNewBlock sampleBlockEnv ⟨false, false, 0⟩ =
      (.ok (), ⟨false, false, 0⟩, [.healthCheck "7"]) :=
  (c10_hedge_interval_gates_strategy sampleBlockEnv ⟨false, false, 0⟩
    (by decide) (by decide) rfl (by decide)).1


/-- Claim C4: with the persisted record holding tokenId "0" and the account
owning n >= 1 position tokens, the reconciler returns the token at
enumeration index n-1 (for n = 1 the single owned identifier), and in the
scenario-A evaluation the `saveState` write of the recovered identifier is
the very first call issued — before any mutating ledger action; with zero
owned tokens the reconciler returns the sentinel "0". -/
theorem c4_reconciler_recovers_last_index (led : Mono.Ledger) (env : Env)
    (n : Nat) (hbal : led.npmBalance = n) (hn : 1 ≤ n)
    (hid : led.tokenOfOwnerByIndex (n - 1) ≠ "0") :
    Mono.findOrphanedPosition led = led.tokenOfOwnerByIndex (n - 1) ∧
      Mono.runLifeCycleScenarioA led env =
        LedgerCall.saveStateWrite (led.tokenOfOwnerByIndex (n - 1)) ::
          (Mono.executeFullRebalance env "0").2 ∧
      (∀ led0 : Mono.Ledger, led0.npmBalance = 0 →
        Mono.findOrphanedPosition led0 = "0") := by
  subst hbal
  have hfind : Mono.findOrphanedPosition led =
      led.tokenOfOwnerByIndex (led.npmBalance - 1) := by
    unfold Mono.findOrphanedPosition
    rw [if_pos (by omega)]
  refine ⟨hfind, ?_, ?_⟩
  · simp only [Mono.runLifeCycleScenarioA, hfind]
    split_ifs
    · rfl
  · intro led0 h0
    unfold Mono.findOrphanedPosition
    rw [h0]
    rfl

/-- Witness for C4: an account owning exactly one token with id "5" has it
recovered and persisted first. -/
theorem c4_witness :
    Mono.findOrphanedPosition ⟨1, fun _ => "5"⟩ = "5" ∧
      Mono.runLifeCycleScenarioA ⟨1, fun _ => "5"⟩ sampleEnv =
        LedgerCall.saveStateWrite "5" ::
          (Mono.executeFullRebalance sampleEnv "0").2 :=
  ⟨(c4_reconciler_recovers_last_index ⟨1, fun _ => "5"⟩ sampleEnv 1 rfl
      (by decide) (by decide)).1,
    (c4_reconciler_recovers_last_index ⟨1, fun _ => "5"⟩ sampleEnv 1 rfl
      (by decide) (by decide)).2.1⟩


/-- Claim C8 (amended): in the monolith variant, whenever the absolute
deviation of the held USDC value from the even split of the total value is
below the fixed 2-dollar threshold, the rebalance step issues only the two
balance reads — no swap and no other mutating call — reports success and
leaves both balances untouched. The cited actions-module variant has no such
value threshold: it skips only below its per-asset minimum-trade floors
(5 USDC on the USDC side, 0.002 WETH on the WETH side), so a deviation below
2 dollars can still submit a swap there (see `c8_counterexample`). -/
theorem c8_below_threshold_skips_swap (env : Env) :
    (|env.balUSDC - (env.balUSDC + env.balWETH * env.priceWethInUsdc) / 2| < 2 →
      Mono.rebalancePortfolio env =
          (.ok (), [.balanceRead "USDC", .balanceRead "WETH"]) ∧
        (∀ c ∈ (Mono.rebalancePortfolio env).2, c.isMutating = false) ∧
        (∀ c ∈ (Mono.rebalancePortfolio env).2, c.isSwap = false)) ∧
      (env.balUSDC ≤ env.balWETH * env.priceWethInUsdc →
        (env.balWETH * env.priceWethInUsdc - env.balUSDC) / 2 / env.priceWethInUsdc <
          2 / 1000 →
        Actions.rebalancePortfolio env =
          (.ok (), [.balanceRead "USDC", .balanceRead "WETH"])) ∧
      (env.balWETH * env.priceWethInUsdc < env.balUSDC →
        (env.balUSDC - env.balWETH * env.priceWethInUsdc) / 2 < 5 →
        Actions.rebalancePortfolio env =
          (.ok (), [.balanceRead "USDC", .balanceRead "WETH"])) := by
  refine ⟨?_, ?_, ?_⟩
  · intro h
    have heq : Mono.rebalancePortfolio env =
        (.ok (), [.balanceRead "USDC", .balanceRead "WETH"]) := by
      simp only [Mono.rebalancePortfolio]
      rw [if_pos h]
    refine ⟨heq, ?_, ?_⟩ <;> rw [heq] <;>
      simp [LedgerCall.isMutating, LedgerCall.isSwap]
  · intro h1 h2
    unfold Actions.rebalancePortfolio
    dsimp only
    rw [if_neg (not_lt.mpr h1), if_pos h2]
  · intro h1 h2
    unfold Actions.rebalancePortfolio
    dsimp only
    rw [if_pos h1, if_pos h2]

/-- Counterexample to C8 as stated: in `envC8` the deviation from the even
split is 1.50 dollars, below the 2-dollar threshold, yet the cited
actions-module rebalance still submits a swap selling 0.003 WETH — its skip
condition is the per-asset 0.002 WETH floor, not the value threshold, so the
balances do not stay unchanged. -/
theorem c8_counterexample :
    |envC8.balUSDC - (envC8.balUSDC + envC8.balWETH * envC8.priceWethInUsdc) / 2| < 2 ∧
      LedgerCall.swap "WETH" "USDC" (3 / 1000) 0 ∈ (Actions.rebalancePortfolio envC8).2 := by
  constructor
  · norm_num [envC8, sampleEnv, abs_lt]
  · unfold Actions.rebalancePortfolio envC8 sampleEnv
    norm_num

/-- Witness for C8: with zero balances the deviation is 0, below the
threshold, and the monolith rebalance issues only the two reads; the
actions-module variant also skips there, its zero trade lying below its
floor. -/
theorem c8_witness :
    Mono.rebalancePortfolio sampleEnv =
        (.ok (), [.balanceRead "USDC", .balanceRead "WETH"]) ∧
      Actions.rebalancePortfolio sampleEnv =
        (.ok (), [.balanceRead "USDC", .balanceRead "WETH"]) :=
  ⟨((c8_below_threshold_skips_swap sampleEnv).1 (by norm_num [sampleEnv])).1,
    (c8_below_threshold_skips_swap sampleEnv).2.1 (by norm_num [sampleEnv])
      (by norm_num [sampleEnv])⟩


/-! ## Shape of the phase traces -/

namespace Mono

theorem exitPhase_shape (env : Env) (tok : String) :
    ∀ c ∈ exitPhase env tok,
      c = .positionsRead tok ∨ c = .decreaseLiquidity tok ∨
        c = .collect tok ∨ c = .burn tok := by
  intro c hc
  unfold exitPhase at hc
  repeat' split at hc
  all_goals simp_all
  all_goals tauto

theorem exitPhase_no_mint (env : Env) (tok : String) (l u : Int) :
    LedgerCall.mint l u ∉ exitPhase env tok := by
  intro hc
  rcases exitPhase_shape env tok _ hc with h | h | h | h <;> simp at h

theorem exitPhase_no_save (env : Env) (tok t : String) :
    LedgerCall.saveStateWrite t ∉ exitPhase env tok := by
  intro hc
  rcases exitPhase_shape env tok _ hc with h | h | h | h <;> simp at h

theorem rebalancePortfolio_shape (env : Env) :
    ∀ c ∈ (rebalancePortfolio env).2,
      c = .balanceRead "USDC" ∨ c = .balanceRead "WETH" ∨ c.isSwap = true := by
  intro c hc
  unfold rebalancePortfolio at hc
  dsimp only at hc
  split_ifs at hc
  all_goals simp_all [LedgerCall.isSwap]
  all_goals first
  | tauto
  | (rcases hc with rfl | rfl | rfl <;> simp [LedgerCall.isSwap])

theorem rebalancePortfolio_no_mint (env : Env) (l u : Int) :
    LedgerCall.mint l u ∉ (rebalancePortfolio env).2 := by
  intro hc
  rcases rebalancePortfolio_shape env _ hc with h | h | h <;>
    simp [LedgerCall.isSwap] at h

theorem rebalancePortfolio_no_save (env : Env) (t : String) :
    LedgerCall.saveStateWrite t ∉ (rebalancePortfolio env).2 := by
  intro hc
  rcases rebalancePortfolio_shape env _ hc with h | h | h <;>
    simp [LedgerCall.isSwap] at h

theorem mintMaxLiquidity_no_save (env : Env) (l u : Int) (t : String) :
    LedgerCall.saveStateWrite t ∉ (mintMaxLiquidity env l u).2 := by
  unfold mintMaxLiquidity
  repeat' split
  all_goals simp

end Mono


/-- Claim C2 (amended): in the monolith full-rebalance protocol, a failure of
the rebalance-swap phase, or of the post-swap price refresh, propagates its
error, and then neither a mint nor a state write is issued; a `saveState`
write appears in the trace only when the invocation returns the successfully
minted identifier (so the persisted record is unchanged on every failure);
and the actions-module `atomicExitPosition` rethrows both a failed position
read and a failed exit multicall. The original claim additionally demanded
that an exit-phase failure abort phases 2-4: the monolith instead swallows
exit-phase errors and proceeds (see `c2_counterexample`). -/
theorem c2_phase_failure_aborts (env : Env) (tok : String) :
    (∀ e, (Mono.rebalancePortfolio env).1 = .error e →
        (Mono.executeFullRebalance env tok).1 = .error e ∧
          (∀ l u, LedgerCall.mint l u ∉ (Mono.executeFullRebalance env tok).2) ∧
          (∀ t, LedgerCall.saveStateWrite t ∉ (Mono.executeFullRebalance env tok).2)) ∧
      (∀ e u0, (Mono.rebalancePortfolio env).1 = .ok u0 →
        env.slot0Result = .error e →
        (Mono.executeFullRebalance env tok).1 = .error e ∧
          (∀ l u, LedgerCall.mint l u ∉ (Mono.executeFullRebalance env tok).2) ∧
          (∀ t, LedgerCall.saveStateWrite t ∉ (Mono.executeFullRebalance env tok).2)) ∧
      (∀ t, LedgerCall.saveStateWrite t ∈ (Mono.executeFullRebalance env tok).2 →
        (Mono.executeFullRebalance env tok).1 = .ok t) ∧
      (∀ e, env.positionsResult = .error e →
        (Actions.atomicExitPosition env tok).1 = .error e) ∧
      (∀ e p, env.positionsResult = .ok p → env.multicallResult = .error e →
        (Actions.atomicExitPosition env tok).1 = .error e) := by
  refine ⟨?_, ?_, ?_, ?_, ?_⟩
  · intro e hr
    have heq : Mono.executeFullRebalance env tok =
        (.error e, Mono.exitPhase env tok ++ (Mono.rebalancePortfolio env).2) := by
      unfold Mono.executeFullRebalance
      dsimp only
      rw [hr]
    refine ⟨by rw [heq], ?_, ?_⟩
    · intro l u
      rw [heq]
      simp [Mono.exitPhase_no_mint, Mono.rebalancePortfolio_no_mint]
    · intro t
      rw [heq]
      simp [Mono.exitPhase_no_save, Mono.rebalancePortfolio_no_save]
  · intro e u0 hr hs
    have heq : Mono.executeFullRebalance env tok =
        (.error e,
          Mono.exitPhase env tok ++ (Mono.rebalancePortfolio env).2 ++ [.slot0Read]) := by
      unfold Mono.executeFullRebalance
      dsimp only
      rw [hr, hs]
    refine ⟨by rw [heq], ?_, ?_⟩
    · intro l u
      rw [heq]
      simp [Mono.exitPhase_no_mint, Mono.rebalancePortfolio_no_mint]
    · intro t
      rw [heq]
      simp [Mono.exitPhase_no_save, Mono.rebalancePortfolio_no_save]
  · intro t ht
    rcases hr : (Mono.rebalancePortfolio env).1 with e0 | u0
    · have heq : Mono.executeFullRebalance env tok =
          (.error e0, Mono.exitPhase env tok ++ (Mono.rebalancePortfolio env).2) := by
        unfold Mono.executeFullRebalance
        dsimp only
        rw [hr]
      rw [heq] at ht
      simp [Mono.exitPhase_no_save, Mono.rebalancePortfolio_no_save] at ht
    · rcases hs : env.slot0Result with e1 | tk
      · have heq : Mono.executeFullRebalance env tok =
            (.error e1,
              Mono.exitPhase env tok ++ (Mono.rebalancePortfolio env).2 ++ [.slot0Read]) := by
          unfold Mono.executeFullRebalance
          dsimp only
          rw [hr, hs]
        rw [heq] at ht
        simp [Mono.exitPhase_no_save, Mono.rebalancePortfolio_no_save] at ht
      · rcases hm : (Mono.mintMaxLiquidity env (Mono.computeRange tk env.tickSpacing).1
            (Mono.computeRange tk env.tickSpacing).2).1 with e2 | nid
        · have heq : Mono.executeFullRebalance env tok =
              (.error e2,
                Mono.exitPhase env tok ++ (Mono.rebalancePortfolio env).2 ++ [.slot0Read] ++
                  (Mono.mintMaxLiquidity env (Mono.computeRange tk env.tickSpacing).1
                    (Mono.computeRange tk env.tickSpacing).2).2) := by
            unfold Mono.executeFullRebalance
            dsimp only
            rw [hr, hs]
            dsimp only
            rw [hm]
          rw [heq] at ht
          simp [Mono.exitPhase_no_save, Mono.rebalancePortfolio_no_save,
            Mono.mintMaxLiquidity_no_save] at ht
        · have heq : Mono.executeFullRebalance env tok =
              (.ok nid,
                Mono.exitPhase env tok ++ (Mono.rebalancePortfolio env).2 ++ [.slot0Read] ++
                  (Mono.mintMaxLiquidity env (Mono.computeRange tk env.tickSpacing).1
                    (Mono.computeRange tk env.tickSpacing).2).2 ++
                  [.saveStateWrite nid]) := by
            unfold Mono.executeFullRebalance
            dsimp only
            rw [hr, hs]
            dsimp only
            rw [hm]
          rw [heq] at ht
          simp [Mono.exitPhase_no_save, Mono.rebalancePortfolio_no_save,
            Mono.mintMaxLiquidity_no_save] at ht
          rw [heq, ht]
  · intro e hp
    unfold Actions.atomicExitPosition
    rw [hp]
  · intro e p hp hm
    unfold Actions.atomicExitPosition
    rw [hp]
    dsimp only
    rw [hm]


/-- Counterexample to C2 as stated: in `envC2` the exit phase fails (the
position read returns a transient error), yet the invocation does not abort:
the rebalance swap, the mint and the `saveState` write all execute and the
invocation returns the new identifier — the exit-phase error is swallowed by
the try/catch of part_003 lines 842-877 instead of propagating. -/
theorem c2_counterexample :
    envC2.positionsResult = Except.error (Err.rpc 0) ∧
      Mono.exitPhase envC2 "42" = [LedgerCall.positionsRead "42"] ∧
      (Mono.executeFullRebalance envC2 "42").1 = Except.ok "777" ∧
      LedgerCall.swap "USDC" "WETH" 50 (199 / 200) ∈
        (Mono.executeFullRebalance envC2 "42").2 ∧
      LedgerCall.mint (-2000) 2000 ∈ (Mono.executeFullRebalance envC2 "42").2 ∧
      LedgerCall.saveStateWrite "777" ∈ (Mono.executeFullRebalance envC2 "42").2 := by
  have hexit : Mono.exitPhase envC2 "42" = [LedgerCall.positionsRead "42"] := by
    unfold Mono.exitPhase
    rw [if_neg (by decide)]
    rfl
  have hreb : Mono.rebalancePortfolio envC2 =
      (.ok (), [.balanceRead "USDC", .balanceRead "WETH",
        .swap "USDC" "WETH" 50 (199 / 200)]) := by
    unfold Mono.rebalancePortfolio envC2 sampleEnv
    norm_num
  have hcr : Mono.computeRange 0 10 = (-2000, 2000) := by decide
  have hmint : Mono.mintMaxLiquidity envC2 (-2000) 2000 =
      (.ok "777", [.balanceRead "USDC", .balanceRead "WETH", .mint (-2000) 2000]) := by
    unfold Mono.mintMaxLiquidity
    rw [show envC2.mintResult = Except.ok [⟨mintEventTopic, "777"⟩] from rfl]
    dsimp only
    rw [show parseMintEvent [⟨mintEventTopic, "777"⟩] = some ⟨mintEventTopic, "777"⟩ from by
      simp [parseMintEvent]]
  have heq : Mono.executeFullRebalance envC2 "42" =
      (.ok "777",
        [.positionsRead "42", .balanceRead "USDC", .balanceRead "WETH",
          .swap "USDC" "WETH" 50 (199 / 200), .slot0Read,
          .balanceRead "USDC", .balanceRead "WETH", .mint (-2000) 2000,
          .saveStateWrite "777"]) := by
    unfold Mono.executeFullRebalance
    dsimp only
    rw [show (Mono.rebalancePortfolio envC2).1 = Except.ok () from by rw [hreb],
      show envC2.slot0Result = Except.ok 0 from rfl]
    dsimp only
    rw [show envC2.tickSpacing = 10 from rfl, hcr]
    dsimp only
    rw [hmint]
    dsimp only
    rw [hexit, hreb]
    rfl
  refine ⟨rfl, hexit, by rw [heq], ?_, ?_, ?_⟩ <;> rw [heq] <;> simp

/-- Witness for C2: the error of a failed position read is rethrown by the
actions-module atomic exit, and a concrete failed swap aborts the monolith
invocation with no mint and no state write. -/
theorem c2_witness :
    (Actions.atomicExitPosition envC2 "42").1 = Except.error (Err.rpc 0) ∧
      ((Mono.executeFullRebalance { envC2 with swapResult := .error .timeout } "42").1 =
          Except.error Err.timeout ∧
        (∀ l u, LedgerCall.mint l u ∉
          (Mono.executeFullRebalance { envC2 with swapResult := .error .timeout } "42").2) ∧
        (∀ t, LedgerCall.saveStateWrite t ∉
          (Mono.executeFullRebalance { envC2 with swapResult := .error .timeout } "42").2)) :=
  ⟨(c2_phase_failure_aborts envC2 "42").2.2.2.1 (Err.rpc 0) rfl,
    (c2_phase_failure_aborts { envC2 with swapResult := .error .timeout } "42").1
      Err.timeout (by
        unfold Mono.rebalancePortfolio
        dsimp only
        rw [if_neg (by norm_num [envC2, sampleEnv]), if_pos (by norm_num [envC2, sampleEnv])])⟩


/-- Claim C3 (amended): every rebalancing swap submitted by the monolith
variant carries a minimum-output equal to the quoted expected output of the
pool reduced by the fixed 0.5 percent slippage tolerance (and positive
whenever the quote is positive); at most one swap is submitted per
invocation, exactly one when the deviation reaches the threshold. The
duplicate actions-module variant also submits at most one swap per
invocation, but submits it with minimum-output 0 (see `c3_counterexample`),
refuting the original "never zero" claim for that variant. -/
theorem c3_swap_slippage_bound (env : Env) :
    (∀ aIn mOut, LedgerCall.swap "USDC" "WETH" aIn mOut ∈ (Mono.rebalancePortfolio env).2 →
        mOut = env.quoteUsdcToWeth aIn * (1 - 50 / 10000) ∧
          (0 < env.quoteUsdcToWeth aIn → 0 < mOut)) ∧
      (∀ aIn mOut, LedgerCall.swap "WETH" "USDC" aIn mOut ∈ (Mono.rebalancePortfolio env).2 →
        mOut = env.quoteWethToUsdc aIn * (1 - 50 / 10000) ∧
          (0 < env.quoteWethToUsdc aIn → 0 < mOut)) ∧
      ((Mono.rebalancePortfolio env).2.countP LedgerCall.isSwap ≤ 1) ∧
      (¬ |env.balUSDC - (env.balUSDC + env.balWETH * env.priceWethInUsdc) / 2| < 2 →
        (Mono.rebalancePortfolio env).2.countP LedgerCall.isSwap = 1) ∧
      ((Actions.rebalancePortfolio env).2.countP LedgerCall.isSwap ≤ 1) ∧
      (∀ tin tout aIn mOut,
        LedgerCall.swap tin tout aIn mOut ∈ (Actions.rebalancePortfolio env).2 →
          mOut = 0) := by
  refine ⟨?_, ?_, ?_, ?_, ?_, ?_⟩
  · intro aIn mOut hmem
    unfold Mono.rebalancePortfolio at hmem
    dsimp only at hmem
    split_ifs at hmem <;> simp at hmem
    obtain ⟨h1, h2⟩ := hmem
    subst h1
    subst h2
    exact ⟨rfl, fun hq => mul_pos hq (by norm_num)⟩
  · intro aIn mOut hmem
    unfold Mono.rebalancePortfolio at hmem
    dsimp only at hmem
    split_ifs at hmem <;> simp at hmem
    obtain ⟨h1, h2⟩ := hmem
    subst h1
    subst h2
    exact ⟨rfl, fun hq => mul_pos hq (by norm_num)⟩
  · unfold Mono.rebalancePortfolio
    dsimp only
    split_ifs <;> simp [List.countP_cons, LedgerCall.isSwap]
  · intro h
    unfold Mono.rebalancePortfolio
    dsimp only
    rw [if_neg h]
    split_ifs <;> simp [List.countP_cons, LedgerCall.isSwap]
  · unfold Actions.rebalancePortfolio
    dsimp only
    split_ifs <;> simp [List.countP_cons, LedgerCall.isSwap]
  · intro tin tout aIn mOut hmem
    unfold Actions.rebalancePortfolio at hmem
    dsimp only at hmem
    split_ifs at hmem <;> simp at hmem <;> tauto

/-- Counterexample to C3 as stated: in `envC3` the actions-module rebalance
submits its swap with minimum-output 0, although the pool quote reduced by
the slippage tolerance is nonzero. -/
theorem c3_counterexample :
    LedgerCall.swap "USDC" "WETH" 50 0 ∈ (Actions.rebalancePortfolio envC3).2 ∧
      envC3.quoteUsdcToWeth 50 * (1 - 50 / 10000) ≠ 0 := by
  constructor
  · unfold Actions.rebalancePortfolio envC3 sampleEnv
    norm_num
  · norm_num [envC3, sampleEnv]

/-- Witness for C3: in `envC3` the monolith rebalance submits exactly one
swap. -/
theorem c3_witness :
    (Mono.rebalancePortfolio envC3).2.countP LedgerCall.isSwap = 1 :=
  (c3_swap_slippage_bound envC3).2.2.2.1 (by norm_num [envC3, sampleEnv])


/-- Claim C5: when the mint submission settles successfully but the expected
Mint event is absent from the receipt logs, the actions-module mint operation
fails with the distinct fatal error `mintEventMissing` — it returns no
identifier, it performs no state write itself, and the error is a dedicated
constructor distinct from the transient `rpc` and `timeout` classes (so the
failure is not treated as retriable); under the same receipt the monolith
full-rebalance invocation likewise never returns an identifier and never
writes state (its unchecked variant crashes with a TypeError instead). -/
theorem c5_missing_mint_event_fatal (env : Env) (tl tu : Int) (logs : List LogEntry)
    (hok : env.mintResult = .ok logs) (habsent : parseMintEvent logs = none) :
    (Actions.mintMaxLiquidity env tl tu).1 = .error .mintEventMissing ∧
      (∀ tid, (Actions.mintMaxLiquidity env tl tu).1 ≠ .ok tid) ∧
      (∀ tid, LedgerCall.saveStateWrite tid ∉ (Actions.mintMaxLiquidity env tl tu).2) ∧
      Err.mintEventMissing ≠ Err.timeout ∧
      (∀ c, Err.mintEventMissing ≠ Err.rpc c) ∧
      (∀ tok tid, (Mono.executeFullRebalance env tok).1 ≠ Except.ok tid) ∧
      (∀ tok tid, LedgerCall.saveStateWrite tid ∉ (Mono.executeFullRebalance env tok).2) := by
  have heqA : Actions.mintMaxLiquidity env tl tu =
      (.error .mintEventMissing,
        [.balanceRead "USDC", .balanceRead "WETH", .mint tl tu]) := by
    unfold Actions.mintMaxLiquidity
    rw [hok]
    dsimp only
    rw [habsent]
  have hMono : ∀ l u : Int, Mono.mintMaxLiquidity env l u =
      (.error .typeErrorUndefined,
        [.balanceRead "USDC", .balanceRead "WETH", .mint l u]) := by
    intro l u
    unfold Mono.mintMaxLiquidity
    rw [hok]
    dsimp only
    rw [habsent]
  have key : ∀ tok : String,
      (∃ e, (Mono.executeFullRebalance env tok).1 = .error e) ∧
        (∀ tid, LedgerCall.saveStateWrite tid ∉ (Mono.executeFullRebalance env tok).2) := by
    intro tok
    rcases hr : (Mono.rebalancePortfolio env).1 with e0 | u0
    · have heq : Mono.executeFullRebalance env tok =
          (.error e0, Mono.exitPhase env tok ++ (Mono.rebalancePortfolio env).2) := by
        unfold Mono.executeFullRebalance
        dsimp only
        rw [hr]
      refine ⟨⟨e0, by rw [heq]⟩, fun tid => ?_⟩
      rw [heq]
      simp [Mono.exitPhase_no_save, Mono.rebalancePortfolio_no_save]
    · rcases hs : env.slot0Result with e1 | tk
      · have heq : Mono.executeFullRebalance env tok =
            (.error e1,
              Mono.exitPhase env tok ++ (Mono.rebalancePortfolio env).2 ++ [.slot0Read]) := by
          unfold Mono.executeFullRebalance
          dsimp only
          rw [hr, hs]
        refine ⟨⟨e1, by rw [heq]⟩, fun tid => ?_⟩
        rw [heq]
        simp [Mono.exitPhase_no_save, Mono.rebalancePortfolio_no_save]
      · have heq : Mono.executeFullRebalance env tok =
            (.error .typeErrorUndefined,
              Mono.exitPhase env tok ++ (Mono.rebalancePortfolio env).2 ++ [.slot0Read] ++
                [.balanceRead "USDC", .balanceRead "WETH",
                  .mint (Mono.computeRange tk env.tickSpacing).1
                    (Mono.computeRange tk env.tickSpacing).2]) := by
          unfold Mono.executeFullRebalance
          dsimp only
          rw [hr, hs]
          dsimp only
          rw [hMono]
        refine ⟨⟨.typeErrorUndefined, by rw [heq]⟩, fun tid => ?_⟩
        rw [heq]
        simp [Mono.exitPhase_no_save, Mono.rebalancePortfolio_no_save]
  refine ⟨by rw [heqA], ?_, ?_, by simp, by intro c; simp, ?_, fun tok => (key tok).2⟩
  · intro tid
    rw [heqA]
    simp
  · intro tid
    rw [heqA]
    simp
  · intro tok tid hcon
    obtain ⟨e, he⟩ := (key tok).1
    rw [he] at hcon
    exact Except.noConfusion hcon

/-- Witness for C5: with `envC5` (a successful mint receipt holding no Mint
event) the actions-module mint fails with the dedicated error and the
monolith invocation persists nothing. -/
theorem c5_witness :
    (Actions.mintMaxLiquidity envC5 0 1).1 = .error .mintEventMissing ∧
      (∀ tid, LedgerCall.saveStateWrite tid ∉ (Mono.executeFullRebalance envC5 "0").2) :=
  ⟨(c5_missing_mint_event_fatal envC5 0 1 [] rfl rfl).1,
    fun tid => (c5_missing_mint_event_fatal envC5 0 1 [] rfl rfl).2.2.2.2.2.2 "0" tid⟩


/-! ## Behaviour of withRetry -/

namespace Utils

theorem withRetryGo_calls_bounds (M : Nat) (op : Nat → Except Err α) :
    ∀ r a, 1 ≤ (withRetryGo M op a r).2.2 ∧ (withRetryGo M op a r).2.2 ≤ r + 1 := by
  intro r
  induction r with
  | zero =>
    intro a
    unfold withRetryGo
    rcases hop : op a with e | v <;> simp
  | succ n ih =>
    intro a
    unfold withRetryGo
    rcases hop : op a with e | v
    · dsimp only
      have h1 := (ih (a + 1)).1
      have h2 := (ih (a + 1)).2
      omega
    · simp

theorem withRetryGo_delays (M : Nat) (op : Nat → Except Err α) :
    ∀ r a i, i < ((withRetryGo M op a r).2.1).length →
      ((withRetryGo M op a r).2.1).get? i =
        some (1000 * ((M : Int) - (r : Int) + 1 + (i : Int))) := by
  intro r
  induction r with
  | zero =>
    intro a i h
    unfold withRetryGo at h
    revert h
    rcases hop : op a with e | v <;> intro h <;> simp at h
  | succ n ih =>
    intro a i h
    unfold withRetryGo at h ⊢
    revert h
    rcases hop : op a with e | v <;> intro h
    · dsimp only at h ⊢
      rcases i with _ | j
      · simp
        ring
      · rw [List.get?_cons_succ]
        have hlen : j < ((withRetryGo M op (a + 1) n).2.1).length := by
          simpa using h
        rw [ih (a + 1) j hlen]
        push_cast
        ring_nf
    · simp at h

theorem withRetryGo_first_success (M : Nat) (op : Nat → Except Err α) (v : α) :
    ∀ k a r, k ≤ r → (∀ j, j < k → ∀ w, op (a + j) ≠ .ok w) →
      op (a + k) = .ok v → (withRetryGo M op a r).1 = .ok v := by
  intro k
  induction k with
  | zero =>
    intro a r _ _ hsucc
    simp only [Nat.add_zero] at hsucc
    rcases r with _ | r0 <;> unfold withRetryGo <;> rw [hsucc]
  | succ n ih =>
    intro a r hkr hfail hsucc
    rcases r with _ | r0
    · omega
    · unfold withRetryGo
      rcases hop : op a with e | w
      · dsimp only
        refine ih (a + 1) r0 (by omega) ?_ ?_
        · intro j hj w2 hw
          refine hfail (j + 1) (by omega) w2 ?_
          rw [show a + (j + 1) = a + 1 + j by omega]
          exact hw
        · rw [show a + 1 + n = a + (n + 1) by omega]
          exact hsucc
      · exact absurd hop (by simpa using hfail 0 (by omega) w)

theorem withRetryGo_all_fail (M : Nat) (op : Nat → Except Err α) (ef : Nat → Err) :
    ∀ r a, (∀ j, j ≤ r → op (a + j) = .error (ef (a + j))) →
      (withRetryGo M op a r).1 = .error (ef (a + r)) := by
  intro r
  induction r with
  | zero =>
    intro a hfail
    have h0 := hfail 0 (by omega)
    simp only [Nat.add_zero] at h0 ⊢
    unfold withRetryGo
    rw [h0]
  | succ n ih =>
    intro a hfail
    have h0 := hfail 0 (by omega)
    simp only [Nat.add_zero] at h0
    unfold withRetryGo
    rw [h0]
    dsimp only
    have hr := ih (a + 1) (fun j hj => by
      have hx := hfail (j + 1) (by omega)
      rw [show a + (j + 1) = a + 1 + j by omega] at hx
      exact hx)
    rw [show a + (n + 1) = a + 1 + n by omega]
    exact hr

end Utils


/-- Claim C9 (amended): `withRetry` invokes the operation at least once and
at most `maxAttempts + 1` times for any budget; the result of the first
successful attempt is returned; when every attempt fails the error of the
final attempt is propagated unchanged; and under the default budget
(`maxAttempts = MAX_RETRIES`, as at every call site of the repository) the
delay before the i-th retry is 1000 ms times i. For a non-default budget the
delay is instead 1000 times (MAX_RETRIES - budget + i), so the original
claim, quantified over every budget, fails (see `c9_counterexample`). -/
theorem c9_with_retry_contract (M r : Nat) (op : Nat → Except Err α) :
    (1 ≤ (Utils.withRetry M op r).2.2 ∧ (Utils.withRetry M op r).2.2 ≤ r + 1) ∧
      (∀ i, i < ((Utils.withRetryDefault M op).2.1).length →
        ((Utils.withRetryDefault M op).2.1).get? i =
          some (1000 * ((i : Int) + 1))) ∧
      (∀ k v, k ≤ r → (∀ j, j < k → ∀ w, op j ≠ .ok w) → op k = .ok v →
        (Utils.withRetry M op r).1 = .ok v) ∧
      (∀ ef : Nat → Err, (∀ j, j ≤ r → op j = .error (ef j)) →
        (Utils.withRetry M op r).1 = .error (ef r)) := by
  refine ⟨Utils.withRetryGo_calls_bounds M op r 0, ?_, ?_, ?_⟩
  · intro i h
    have hd := Utils.withRetryGo_delays M op M 0 i h
    unfold Utils.withRetryDefault Utils.withRetry
    rw [hd]
    congr 1
    ring
  · intro k v hk hfail hsucc
    exact Utils.withRetryGo_first_success M op v k 0 r hk
      (fun j hj w => by simpa using hfail j hj w) (by simpa using hsucc)
  · intro ef hfail
    have hall := Utils.withRetryGo_all_fail M op ef r 0
      (fun j hj => by simpa using hfail j hj)
    simpa using hall

/-- Counterexample to C9 as stated: invoked with a budget one larger than the
configured MAX_RETRIES (here 3), the delay before the first retry is
1000 * (MAX_RETRIES - budget + 1) = 0 ms, not the claimed 1000 * 1 ms — the
delay formula of the claim holds only for the default budget. -/
theorem c9_counterexample :
    ((Utils.withRetry 3 (fun _ => (Except.error Err.timeout : Except Err Nat)) 4).2.1).get? 0 =
        some 0 ∧
      (0 : Int) ≠ 1000 * ((0 : Int) + 1) := by
  exact ⟨rfl, by norm_num⟩

/-- Witness for C9: a concrete operation succeeding on its second attempt
returns that result, and a concrete always-failing operation propagates the
final error. -/
theorem c9_witness :
    (Utils.withRetry 3 (fun i => if i = 1 then Except.ok 7 else Except.error Err.timeout) 2).1 =
        Except.ok 7 ∧
      (Utils.withRetry 3 (fun _ => (Except.error Err.timeout : Except Err Nat)) 3).1 =
        Except.error Err.timeout :=
  ⟨(c9_with_retry_contract 3 2 _).2.2.1 1 7 (by omega)
      (by
        intro j hj w hw
        obtain rfl : j = 0 := by omega
        simp at hw) rfl,
    (c9_with_retry_contract 3 3 _).2.2.2 (fun _ => Err.timeout) (fun j hj => rfl)⟩

end ArbBot
